import Mathlib

/-!
Verification of the portfolio client script (`main.js`).

JavaScript strings are embedded as `List Char`.  The JS standard-library
operations used by the script (`String.prototype.split` with a one-character
separator, `Array.prototype.join`, `Array.prototype.pop`, `encodeURIComponent`,
`decodeURIComponent`) are modelled from their ECMAScript semantics.  The
script's own functions (`encodePath`, the gallery generators, the modal
controller and its event handlers) are translated definition-by-definition from
the source.
-/

namespace Portfolio

/-- Model of JS `str.split('/')` for a single-character separator:
splitting the empty string yields `[""]`, a leading/trailing separator yields
an empty segment. -/
def splitOnChar (sep : Char) : List Char → List (List Char)
  | [] => [[]]
  | c :: rest =>
    let r := splitOnChar sep rest
    if c = sep then [] :: r else (c :: r.headD []) :: r.tail

/-- Model of JS `arr.join('/')` for a single-character separator. -/
def joinChar (sep : Char) : List (List Char) → List Char
  | [] => []
  | [s] => s
  | s :: ss => s ++ sep :: joinChar sep ss

/-- Model of JS `arr.pop()` on the (always nonempty) result of `split`:
the last element, with `[]` as the (unreachable) default. -/
def jsPop (l : List (List Char)) : List Char :=
  l.getLast?.getD []

/-- The characters `encodeURIComponent` leaves unescaped
(ECMA-262 `uriUnescaped`): ALPHA, DIGIT, `- _ . ! ~ * ' ( )`. -/
def isComponentUnescaped (c : Char) : Bool :=
  c.isAlpha || c.isDigit || c = '-' || c = '_' || c = '.' || c = '!'
    || c = '~' || c = '*' || c = Char.ofNat 39 || c = '(' || c = ')'

/-- UTF-8 bytes of a Unicode scalar value. -/
def utf8Bytes (c : Char) : List Nat :=
  let n := c.toNat
  if n < 128 then [n]
  else if n < 2048 then [192 + n / 64, 128 + n % 64]
  else if n < 65536 then [224 + n / 4096, 128 + (n / 64) % 64, 128 + n % 64]
  else [240 + n / 262144, 128 + (n / 4096) % 64, 128 + (n / 64) % 64, 128 + n % 64]

/-- Uppercase hex digit, as emitted by `encodeURIComponent`. -/
def hexDigitChar (n : Nat) : Char :=
  if n < 10 then Char.ofNat (48 + n) else Char.ofNat (55 + n)

/-- A `%XY` escape for one byte. -/
def pctByte (b : Nat) : List Char :=
  ['%', hexDigitChar (b / 16), hexDigitChar (b % 16)]

/-- One character under `encodeURIComponent`: kept verbatim if unescaped,
otherwise each UTF-8 byte becomes a `%XY` escape. -/
def encChar (c : Char) : List Char :=
  if isComponentUnescaped c then [c] else (utf8Bytes c).flatMap pctByte

/-- Model of JS `encodeURIComponent`. -/
def encodeURIComponentL (s : List Char) : List Char :=
  s.flatMap encChar

/-- Hex digit test for percent-decoding (`decodeURIComponent` accepts both
cases). -/
def isHexDigit (c : Char) : Bool :=
  (48 ≤ c.toNat && c.toNat ≤ 57) || (65 ≤ c.toNat && c.toNat ≤ 70)
    || (97 ≤ c.toNat && c.toNat ≤ 102)

/-- Numeric value of a hex digit. -/
def hexVal (c : Char) : Nat :=
  if c.toNat ≤ 57 then c.toNat - 48
  else if c.toNat ≤ 70 then c.toNat - 55
  else c.toNat - 87

/-- First phase of `decodeURIComponent`: percent-decoding to a byte sequence.
A literal character contributes its UTF-8 bytes; `%` followed by two hex
digits contributes that byte; a malformed escape is a `URIError` (`none`). -/
def pctDecode : List Char → Option (List Nat)
  | [] => some []
  | c :: rest =>
    if c = '%' then
      match rest with
      | a :: b :: rest2 =>
        if isHexDigit a ∧ isHexDigit b then
          (pctDecode rest2).map (fun bs => (hexVal a * 16 + hexVal b) :: bs)
        else none
      | _ => none
    else (pctDecode rest).map (fun bs => utf8Bytes c ++ bs)

/-- Is `b` a UTF-8 continuation byte? -/
def isCont (b : Nat) : Bool :=
  128 ≤ b && b < 192

/-- Second phase of `decodeURIComponent`: UTF-8 decoding of the byte
sequence; malformed sequences are a `URIError` (`none`).  The recursion is
on a fuel bound; each step consumes at least one byte, so fuel equal to the
byte count (as supplied by `utf8Decode`) always suffices. -/
def utf8DecodeFuel : Nat → List Nat → Option (List Char)
  | _, [] => some []
  | 0, _ :: _ => none
  | fuel + 1, b :: rest =>
    if b < 128 then (utf8DecodeFuel fuel rest).map (fun cs => Char.ofNat b :: cs)
    else if b < 192 then none
    else if b < 224 then
      match rest.head? with
      | some b1 =>
        if isCont b1 then
          let n := (b - 192) * 64 + (b1 - 128)
          if 128 ≤ n then
            (utf8DecodeFuel fuel (rest.drop 1)).map (fun cs => Char.ofNat n :: cs)
          else none
        else none
      | none => none
    else if b < 240 then
      match rest.head?, (rest.drop 1).head? with
      | some b1, some b2 =>
        if isCont b1 ∧ isCont b2 then
          let n := (b - 224) * 4096 + (b1 - 128) * 64 + (b2 - 128)
          if 2048 ≤ n ∧ ¬(55296 ≤ n ∧ n ≤ 57343) then
            (utf8DecodeFuel fuel (rest.drop 2)).map (fun cs => Char.ofNat n :: cs)
          else none
        else none
      | _, _ => none
    else if b < 248 then
      match rest.head?, (rest.drop 1).head?, (rest.drop 2).head? with
      | some b1, some b2, some b3 =>
        if isCont b1 ∧ isCont b2 ∧ isCont b3 then
          let n := (b - 240) * 262144 + (b1 - 128) * 4096 + (b2 - 128) * 64 + (b3 - 128)
          if 65536 ≤ n ∧ n < 1114112 then
            (utf8DecodeFuel fuel (rest.drop 3)).map (fun cs => Char.ofNat n :: cs)
          else none
        else none
      | _, _, _ => none
    else none

/-- UTF-8 decoding of a byte sequence (fuel instantiated to the length). -/
def utf8Decode (bs : List Nat) : Option (List Char) :=
  utf8DecodeFuel bs.length bs

/-- Model of JS `decodeURIComponent`: percent-decode, then UTF-8 decode. -/
def decodeURIComponentL (s : List Char) : Option (List Char) :=
  (pctDecode s).bind utf8Decode

/-- The character set of the round-trip property: the RFC 3986 unreserved
characters (ALPHA, DIGIT, `-`, `.`, `_`, `~`) plus space, apostrophe and `@`,
and the path separator `/` itself. -/
def allowedChar (c : Char) : Bool :=
  c.isAlpha || c.isDigit || c = '-' || c = '.' || c = '_' || c = '~'
    || c = ' ' || c = Char.ofNat 39 || c = '@' || c = '/'

/-- Segment encoding of `encodePath` from `main.js`: split on `/`, keep empty segments and the
current-directory marker `.` verbatim, `encodeURIComponent` every other
segment, rejoin with `/`. -/
def segEnc (segment : List Char) : List Char :=
  if segment = [] ∨ segment = ['.'] then segment else encodeURIComponentL segment

/-- Function `encodePath` from `main.js` (lines 31-40). -/
def encodePath (path : List Char) : List Char :=
  joinChar '/' ((splitOnChar '/' path).map segEnc)

/-- Function `encodePath` lifted to Lean `String` for readable concrete statements. -/
def encodePathStr (path : String) : String :=
  ⟨encodePath path.data⟩

/-- A character the regex class `[^/.]` accepts. -/
def isExtChar (c : Char) : Bool :=
  !(c = '.') && !(c = '/')

/-- Model of the JS regex replace `.replace(/\.[^/.]+$/, '')`: strip a final
`.` followed by one or more characters none of which is `.` or `/`; if no
such suffix exists the string is unchanged. -/
def stripExt (s : List Char) : List Char :=
  let r := s.reverse
  let t := r.takeWhile isExtChar
  if (r.drop t.length).head? = some '.' ∧ t ≠ [] then (r.drop (t.length + 1)).reverse
  else s

/-- Filename derivation of the flyer gallery (`main.js` line 160):
`flyerPath.split('/').pop().replace(/\.[^/.]+$/, '')`. -/
def deriveFilename (path : List Char) : List Char :=
  stripExt (jsPop (splitOnChar '/' path))

/-- Filename derivation of the logo gallery (`main.js` lines 218-219):
`(logoPath.split('/').pop() || 'logo').replace(/\.[^/.]+$/, '')`. -/
def deriveFilenameLogo (path : List Char) : List Char :=
  let filenameWithExt := jsPop (splitOnChar '/' path)
  stripExt (if filenameWithExt = [] then "logo".data else filenameWithExt)

/-- The `download` attribute set by `openModal` (`main.js` line 298):
`imagePath.split('/').pop() || imageName` — the raw final segment with
extension, falling back to the display name when that segment is empty. -/
def jsDownloadName (imagePath imageName : List Char) : List Char :=
  let seg := jsPop (splitOnChar '/' imagePath)
  if seg = [] then imageName else seg

-- ============================================================================
-- GALLERY DATA (the static configuration lists from `main.js`)
-- ============================================================================

/-- The `flyers` array (`main.js` lines 50-89). -/
def flyers : List (List Char) :=
  [("./Public/ALL FLYERS/AFROSONIK-FEST-\x2725-FLYER.png").data,
   ("./Public/ALL FLYERS/AFTER-PARTY-01-POSTER.png").data,
   ("./Public/ALL FLYERS/AISHA\x27S-BEAUTY-EMPIRE-02.png").data,
   ("./Public/ALL FLYERS/BEYOND-THE-CANVAS-ART-EXHIBITION.png").data,
   ("./Public/ALL FLYERS/BORN-FROM-THE-STREETS-POSTER.png").data,
   ("./Public/ALL FLYERS/BUSINESS-MADE-EASY.png").data,
   ("./Public/ALL FLYERS/CHARITY-01-FULL.png").data,
   ("./Public/ALL FLYERS/CLOUDY-POSTER-01.png").data,
   ("./Public/ALL FLYERS/CRYPTO-02.png").data,
   ("./Public/ALL FLYERS/CRYPTO-FLYER.png").data,
   ("./Public/ALL FLYERS/CRYPTO-INSTANTLY.png").data,
   ("./Public/ALL FLYERS/FILL-UP-PRAYER-POSTER.png").data,
   ("./Public/ALL FLYERS/FOREX-EXCHANGE01.png").data,
   ("./Public/ALL FLYERS/FORTI-CRYPTO-POSTER-01.png").data,
   ("./Public/ALL FLYERS/FORTI-TRADE-POSTER-04.png").data,
   ("./Public/ALL FLYERS/FORTI-TRADIND-POSTER-05-01.png").data,
   ("./Public/ALL FLYERS/FORTI-TRADING-POSTER-02.png").data,
   ("./Public/ALL FLYERS/GAMBRO-BDAY-FLYER.png").data,
   ("./Public/ALL FLYERS/JASSEH\x27S-POSTER-01.png").data,
   ("./Public/ALL FLYERS/KADDI-KONNECT-POSTER-01.png").data,
   ("./Public/ALL FLYERS/KADDI-KONNECT-POSTER-02.png").data,
   ("./Public/ALL FLYERS/KADDI-KONNECT-POSTER-03.png").data,
   ("./Public/ALL FLYERS/KADDI-KONNECT-POSTER-04.png").data,
   ("./Public/ALL FLYERS/KADDI-KONNECT-POSTER-05.png").data,
   ("./Public/ALL FLYERS/KADDI-KONNECT-POSTER-06.png").data,
   ("./Public/ALL FLYERS/KADDI-KONNECT-POSTER-07.png").data,
   ("./Public/ALL FLYERS/KADDI-KONNECT-POSTER-08.png").data,
   ("./Public/ALL FLYERS/KADDI-KONNECT-POSTER-09.png").data,
   ("./Public/ALL FLYERS/KADDI-KONNECT-POSTER-GRID.png").data,
   ("./Public/ALL FLYERS/MICRO-FINANCE-01-A.png").data,
   ("./Public/ALL FLYERS/MICRO-FINANCE-01.png").data,
   ("./Public/ALL FLYERS/PREDICT-THE-WIN.png").data,
   ("./Public/ALL FLYERS/PTC-TRADING-POSTER-02.png").data,
   ("./Public/ALL FLYERS/SIGNAL-ART-EXHIBITION.png").data,
   ("./Public/ALL FLYERS/SOHNA-SPIRITS-POSTER-01.gif").data,
   ("./Public/ALL FLYERS/THANK-GOD-IS-FRIDAY.png").data,
   ("./Public/ALL FLYERS/TINNA\x27S-MASTERCLASS-MAKEUP-3D-HEART.png").data,
   ("./Public/ALL FLYERS/TIRED-OF-DELAYED-TRANSACTION-02.png").data]

/-- The `logos` array (`main.js` lines 97-110). -/
def logos : List (List Char) :=
  [("./Public/ALL LOGOS/AfroSnz-Behance-01.png").data,
   ("./Public/ALL LOGOS/AfroSnz-Behance-03.png").data,
   ("./Public/ALL LOGOS/Annoucement 1.png").data,
   ("./Public/ALL LOGOS/BOTLAX 01.png").data,
   ("./Public/ALL LOGOS/BOTLAX 02.png").data,
   ("./Public/ALL LOGOS/Claud-Africa-New-Logo-1.png").data,
   ("./Public/ALL LOGOS/Cliick Logo 1@4x.png").data,
   ("./Public/ALL LOGOS/Cliick Logo 4@4x.png").data,
   ("./Public/ALL LOGOS/LOGO_1 copy.png").data,
   ("./Public/ALL LOGOS/LOGO_7.png").data,
   ("./Public/ALL LOGOS/MAGENTA BG.png").data,
   ("./Public/ALL LOGOS/WHITE BG 02.png").data]

-- ============================================================================
-- GALLERY GENERATION
-- ============================================================================

/-- One rendered gallery card: the attributes `generateGallery` /
`generateLogoGallery` set on the card `div` and its `img` child. -/
structure Card where
  imgSrc : List Char
  imgAlt : List Char
  ariaLabel : List Char
  tabindex : Int
  deriving DecidableEq, Repr

/-- The card built for one flyer (`main.js` lines 160-193). -/
def flyerCard (flyerPath : List Char) : Card :=
  let filename := deriveFilename flyerPath
  { imgSrc := encodePath flyerPath
    imgAlt := filename ++ (" flyer preview").data
    ariaLabel := ("View ").data ++ filename ++ (" flyer").data
    tabindex := 0 }

/-- The card built for one logo (`main.js` lines 218-238). -/
def logoCard (logoPath : List Char) : Card :=
  let filename := deriveFilenameLogo logoPath
  { imgSrc := encodePath logoPath
    imgAlt := filename ++ (" logo preview").data
    ariaLabel := ("View ").data ++ filename ++ (" logo").data
    tabindex := 0 }

/-- Function `generateGallery` (`main.js` lines 146-195) acting on the gallery
container, modelled as the list of its cards (`none` = container missing:
log an error and return without effect).  The body clears `innerHTML` and
then appends one card per flyer, in array order. -/
def generateGallery (container : Option (List Card)) : Option (List Card) :=
  match container with
  | none => none
  | some _ =>
    let cleared : List Card := []
    some (flyers.foldl (fun acc flyerPath => acc ++ [flyerCard flyerPath]) cleared)

/-- Function `generateLogoGallery` (`main.js` lines 203-255): clears the container,
builds the cards into a document fragment, appends the fragment. -/
def generateLogoGallery (container : Option (List Card)) : Option (List Card) :=
  match container with
  | none => none
  | some _ =>
    let cleared : List Card := []
    let fragment := logos.foldl (fun acc logoPath => acc ++ [logoCard logoPath]) []
    some (cleared ++ fragment)

-- ============================================================================
-- MODAL CONTROLLER
-- ============================================================================

/-- The element id of the modal close button (`modalCloseBtn`), the target of
`modalCloseBtn.focus()` in `openModal`. -/
def closeBtnId : Nat := 0

/-- The global state touched by the modal controller: the overlay's CSS
classes and `aria-hidden` attribute, the body scroll lock, the module-level
`isModalOpen` / `lastFocusedElement` variables, `document.activeElement`
(as an element id), the populated image/download attributes, and the
queues of scheduled-but-not-yet-fired callbacks (`requestAnimationFrame`
from `openModal`, `setTimeout` from `closeModal`).  All close-timeout
callbacks are the same closure reading the globals, so a count suffices. -/
structure ModalState where
  hidden : Bool
  flex : Bool
  isOpenClass : Bool
  ariaHidden : Bool
  bodyScrollLocked : Bool
  isModalOpen : Bool
  lastFocusedElement : Option Nat
  focused : Option Nat
  modalImageSrc : List Char
  modalImageAlt : List Char
  downloadHref : List Char
  downloadAttr : List Char
  pendingRAF : Nat
  pendingClose : Nat
  deriving DecidableEq, Repr

/-- Function `openModal(imagePath, imageName)` (`main.js` lines 281-317). -/
def openModal (imagePath imageName : List Char) (s : ModalState) : ModalState :=
  { s with
    lastFocusedElement := s.focused
    isModalOpen := true
    modalImageSrc := encodePath imagePath
    modalImageAlt := imageName ++ (" preview").data
    downloadHref := encodePath imagePath
    downloadAttr := jsDownloadName imagePath imageName
    hidden := false
    flex := true
    ariaHidden := false
    pendingRAF := s.pendingRAF + 1
    bodyScrollLocked := true
    focused := some closeBtnId }

/-- Function `closeModal()` (`main.js` lines 323-347): flips `isModalOpen`, removes
the `is-open` class, and unconditionally schedules the hide-and-restore
timeout — there is no pending/closed check and no cancellation handle. -/
def closeModal (s : ModalState) : ModalState :=
  { s with
    isModalOpen := false
    isOpenClass := false
    pendingClose := s.pendingClose + 1 }

/-- The body of the `setTimeout` callback scheduled by `closeModal`
(`main.js` lines 331-346): hide the overlay, mark it `aria-hidden`, restore
body scroll, and restore focus to `lastFocusedElement` (nulling it) if set.
The body itself is unconditional — it never consults `isModalOpen`. -/
def closeTimeoutBody (s : ModalState) : ModalState :=
  { s with
    hidden := true
    flex := false
    ariaHidden := true
    bodyScrollLocked := false
    focused := match s.lastFocusedElement with
      | some e => some e
      | none => s.focused
    lastFocusedElement := none }

/-- Scheduler step: one pending close timeout elapses and its callback body
runs; a no-op when none is pending. -/
def fireCloseTimeout (s : ModalState) : ModalState :=
  if s.pendingClose = 0 then s
  else closeTimeoutBody { s with pendingClose := s.pendingClose - 1 }

/-- Scheduler step: one pending animation frame fires, adding `is-open`
(`main.js` lines 308-310); a no-op when none is pending. -/
def fireRAF (s : ModalState) : ModalState :=
  if s.pendingRAF = 0 then s
  else { s with pendingRAF := s.pendingRAF - 1, isOpenClass := true }

/-- The Escape branch of the global keydown listener (`main.js` lines
367-372): `if (e.key === 'Escape' && isModalOpen) closeModal()`. -/
def handleEscape (s : ModalState) : ModalState :=
  if s.isModalOpen then closeModal s else s

-- ============================================================================
-- FOCUS TRAP
-- ============================================================================

/-- A DOM element as seen by the focus trap: its identity, whether it matches
the focusable selector of `getFocusableElements`, and whether it is visible
(`offsetParent !== null`). -/
structure El where
  id : Nat
  matchesSelector : Bool
  visible : Bool
  deriving DecidableEq, Repr

/-- Function `getFocusableElements(container)` (`main.js` lines 265-273): the
container's descendants in document order that match the focusable selector,
filtered to those actually visible. -/
def getFocusableElements (container : List El) : List El :=
  (container.filter (fun el => el.matchesSelector)).filter (fun el => el.visible)

/-- The Tab branch of the global keydown listener (`main.js` lines 375-393).
Returns the new `document.activeElement` and whether `preventDefault` was
called.  Mirrors the source: the trap only runs while `isModalOpen`; an
empty focusable list returns early; the two `if`s run in sequence, the
second reading the (possibly updated) active element. -/
def handleTab (isModalOpenFlag : Bool) (container : List El) (shiftKey : Bool)
    (active : Option El) : Option El × Bool :=
  if ¬isModalOpenFlag then (active, false)
  else
    match getFocusableElements container with
    | [] => (active, false)
    | f :: rest =>
      let l := (f :: rest).getLast (List.cons_ne_nil f rest)
      let step1 : Option El × Bool :=
        if shiftKey ∧ active = some f then (some l, true) else (active, false)
      if ¬shiftKey ∧ step1.1 = some l then (some f, true) else step1

/-- A baseline closed-modal state: overlay hidden, scroll unlocked, no
pending callbacks, keyboard focus on a gallery card (element id 5). -/
def initState : ModalState :=
  { hidden := true, flex := false, isOpenClass := false, ariaHidden := true,
    bodyScrollLocked := false, isModalOpen := false, lastFocusedElement := none,
    focused := some 5, modalImageSrc := [], modalImageAlt := [],
    downloadHref := [], downloadAttr := [], pendingRAF := 0, pendingClose := 0 }

-- ============================================================================
-- SUPPORTING LEMMAS
-- ============================================================================

theorem splitOnChar_ne_nil (sep : Char) (l : List Char) : splitOnChar sep l ≠ [] := by
  cases l with
  | nil => simp [splitOnChar]
  | cons c rest => simp only [splitOnChar]; split <;> simp

theorem joinChar_cons_cons (sep : Char) (s s2 : List Char) (tl : List (List Char)) :
    joinChar sep (s :: s2 :: tl) = s ++ sep :: joinChar sep (s2 :: tl) := rfl

theorem joinChar_splitOnChar (sep : Char) (l : List Char) :
    joinChar sep (splitOnChar sep l) = l := by
  induction l with
  | nil => rfl
  | cons c rest ih =>
    rcases h : splitOnChar sep rest with _ | ⟨s, ss⟩
    · exact absurd h (splitOnChar_ne_nil sep rest)
    · rw [h] at ih
      by_cases hc : c = sep
      · subst hc
        simp only [splitOnChar, h, if_pos]
        rw [joinChar_cons_cons, List.nil_append, ih]
      · simp only [splitOnChar, if_neg hc, h, List.headD_cons, List.tail_cons]
        cases ss with
        | nil => simpa [joinChar] using congrArg (c :: ·) ih
        | cons s2 tl =>
          rw [joinChar_cons_cons] at ih ⊢
          rw [List.cons_append, ih]

theorem mem_of_mem_splitOnChar (sep : Char) (l : List Char) :
    ∀ s ∈ splitOnChar sep l, ∀ c ∈ s, c ∈ l ∧ c ≠ sep := by
  induction l with
  | nil =>
    intro s hs c hc
    simp [splitOnChar] at hs
    subst hs
    simp at hc
  | cons x rest ih =>
    intro s hs c hc
    obtain ⟨s0, ss, h⟩ := List.exists_cons_of_ne_nil (splitOnChar_ne_nil sep rest)
    · by_cases hx : x = sep
      · subst hx
        simp only [splitOnChar, if_pos, List.mem_cons] at hs
        rcases hs with rfl | hs
        · simp at hc
        · have := ih s hs c hc
          exact ⟨List.mem_cons_of_mem _ this.1, this.2⟩
      · simp only [splitOnChar, if_neg hx, h, List.headD_cons, List.tail_cons,
          List.mem_cons] at hs
        rcases hs with rfl | hs
        · rcases List.mem_cons.mp hc with rfl | hc0
          · exact ⟨List.mem_cons_self _ _, hx⟩
          · have hmem : s0 ∈ splitOnChar sep rest := by rw [h]; exact List.mem_cons_self _ _
            have := ih s0 hmem c hc0
            exact ⟨List.mem_cons_of_mem _ this.1, this.2⟩
        · have hmem : s ∈ splitOnChar sep rest := by rw [h]; exact List.mem_cons_of_mem _ hs
          have := ih s hmem c hc
          exact ⟨List.mem_cons_of_mem _ this.1, this.2⟩

theorem jsPop_cons_cons (a b : List Char) (l : List (List Char)) :
    jsPop (a :: b :: l) = jsPop (b :: l) := by
  simp [jsPop, List.getLast?_cons_cons]

theorem jsPop_singleton (a : List Char) : jsPop [a] = a := rfl

theorem splitOnChar_eq_single_nil (sep : Char) (l : List Char)
    (h : splitOnChar sep l = [[]]) : l = [] := by
  cases l with
  | nil => rfl
  | cons c rest =>
    exfalso
    rcases hr : splitOnChar sep rest with _ | ⟨s, ss⟩
    · exact absurd hr (splitOnChar_ne_nil sep rest)
    · by_cases hc : c = sep
      · simp only [splitOnChar, if_pos hc, hr] at h
        have := congrArg List.length h
        simp at this
      · simp only [splitOnChar, if_neg hc, hr, List.headD_cons, List.tail_cons] at h
        exact absurd (List.head_eq_of_cons_eq h) (by simp)

theorem jsPop_splitOnChar_eq_nil_iff (p : List Char) :
    jsPop (splitOnChar '/' p) = [] ↔ p = [] ∨ p.getLast? = some '/' := by
  induction p with
  | nil => simp [splitOnChar, jsPop]
  | cons c rest ih =>
    obtain ⟨s, ss, h⟩ := List.exists_cons_of_ne_nil (splitOnChar_ne_nil '/' rest)
    by_cases hc : c = '/'
    · subst hc
      rw [show splitOnChar '/' ('/' :: rest) = [] :: s :: ss from by simp [splitOnChar, h]]
      rw [jsPop_cons_cons, ← h]
      cases rest with
      | nil => simp [splitOnChar, jsPop]
      | cons x xs => rw [ih]; simp [List.getLast?_cons_cons]
    · rw [show splitOnChar '/' (c :: rest) = (c :: s) :: ss from by simp [splitOnChar, hc, h]]
      cases ss with
      | nil =>
        simp only [jsPop_singleton]
        constructor
        · intro habs; simp at habs
        · intro habs
          exfalso
          rcases habs with habs | habs
          · simp at habs
          · cases rest with
            | nil =>
              simp at habs
              exact hc habs
            | cons x xs =>
              rw [List.getLast?_cons_cons] at habs
              have hlast : (x :: xs) = [] ∨ (x :: xs).getLast? = some '/' := Or.inr habs
              have hnil : jsPop (splitOnChar '/' (x :: xs)) = [] := ih.mpr hlast
              rw [h, jsPop_singleton] at hnil
              subst hnil
              have := splitOnChar_eq_single_nil '/' (x :: xs) h
              simp at this
      | cons s2 tl =>
        rw [jsPop_cons_cons]
        have hsplit : jsPop (splitOnChar '/' rest) = jsPop (s2 :: tl) := by
          rw [h, jsPop_cons_cons]
        rw [← hsplit, ih]
        have hrest : rest ≠ [] := by
          intro hrnil
          rw [hrnil] at h
          simp [splitOnChar] at h
        cases rest with
        | nil => exact absurd rfl hrest
        | cons x xs => simp [List.getLast?_cons_cons]

theorem takeWhile_append_of_all (p : Char → Bool) (u v : List Char)
    (hu : ∀ c ∈ u, p c = true) (hv : ∀ c, v.head? = some c → p c = false) :
    (u ++ v).takeWhile p = u := by
  induction u with
  | nil =>
    cases v with
    | nil => rfl
    | cons c t => simp [List.takeWhile_cons, hv c rfl]
  | cons a u ih =>
    simp only [List.cons_append, List.takeWhile_cons, hu a (List.mem_cons_self _ _),
      if_true]
    rw [ih (fun c hc => hu c (List.mem_cons_of_mem _ hc))]

theorem stripExt_strip (s t : List Char) (ht : t ≠ [])
    (hchars : ∀ c ∈ t, isExtChar c = true) : stripExt (s ++ '.' :: t) = s := by
  have hrev : (s ++ '.' :: t).reverse = t.reverse ++ '.' :: s.reverse := by
    rw [List.reverse_append, List.reverse_cons, List.append_assoc, List.singleton_append]
  have htake : (t.reverse ++ '.' :: s.reverse).takeWhile isExtChar = t.reverse :=
    takeWhile_append_of_all _ _ _ (fun c hc => hchars c (List.mem_reverse.mp hc))
      (fun c hc => by
        simp only [List.head?_cons, Option.some_inj] at hc
        subst hc
        decide)
  have hdrop : (t.reverse ++ '.' :: s.reverse).drop t.reverse.length = '.' :: s.reverse :=
    List.drop_left _ _
  have hdrop1 : (t.reverse ++ '.' :: s.reverse).drop (t.reverse.length + 1) = s.reverse := by
    have := @List.drop_append Char t.reverse ('.' :: s.reverse) 1
    rw [this]
    rfl
  simp only [stripExt, hrev, htake, hdrop, hdrop1, List.head?_cons]
  rw [if_pos (And.intro trivial (by simpa using ht)), List.reverse_reverse]

theorem stripExt_no_dot (s : List Char) (h : ∀ c ∈ s, c ≠ '.') : stripExt s = s := by
  simp only [stripExt]
  cases hd : (s.reverse.drop (s.reverse.takeWhile isExtChar).length).head? with
  | none => simp [hd]
  | some c =>
    have hcmem : c ∈ s := by
      have h1 : c ∈ s.reverse.drop (s.reverse.takeWhile isExtChar).length :=
        List.mem_of_mem_head? hd
      exact List.mem_reverse.mp (List.mem_of_mem_drop h1)
    rw [if_neg]
    intro hcon
    exact h c hcmem (Option.some_inj.mp hcon.1)

theorem stripExt_trailing_dot (s : List Char) : stripExt (s ++ ['.']) = s ++ ['.'] := by
  simp only [stripExt, List.reverse_append, List.reverse_cons, List.reverse_nil,
    List.nil_append, List.singleton_append, List.takeWhile_cons]
  rw [if_neg (by decide : ¬ isExtChar '.' = true)]
  simp

theorem foldl_append_eq_map {α β : Type} (f : α → β) (xs : List α) (acc : List β) :
    xs.foldl (fun a x => a ++ [f x]) acc = acc ++ xs.map f := by
  induction xs generalizing acc with
  | nil => simp
  | cons x xs ih => simp [List.foldl_cons, ih]

theorem allowedChar_toNat_lt (c : Char) (h : allowedChar c = true) : c.toNat < 128 := by
  simp only [allowedChar, Bool.or_eq_true, decide_eq_true_eq] at h
  rcases h with ((((((((ha | hd) | rfl) | rfl) | rfl) | rfl) | rfl) | rfl) | rfl) | rfl
  · simp [Char.isAlpha, Char.isUpper, Char.isLower, UInt32.le_def, BitVec.le_def] at ha
    simp only [Char.toNat, UInt32.toNat]
    rcases ha with ⟨h1, h2⟩ | ⟨h1, h2⟩ <;> omega
  · simp [Char.isDigit, UInt32.le_def, BitVec.le_def] at hd
    simp only [Char.toNat, UInt32.toNat]
    omega
  all_goals decide

theorem allowedChar_cases (c : Char) (h : allowedChar c = true) :
    isComponentUnescaped c = true ∨ c = ' ' ∨ c = '@' ∨ c = '/' := by
  simp only [allowedChar, Bool.or_eq_true, decide_eq_true_eq] at h
  rcases h with ((((((((ha | hd) | rfl) | rfl) | rfl) | rfl) | rfl) | rfl) | rfl) | rfl
  · exact Or.inl (by simp [isComponentUnescaped, ha])
  · exact Or.inl (by simp [isComponentUnescaped, hd])
  all_goals decide

theorem allowedChar_ne_pct (c : Char) (h : allowedChar c = true) : ¬ c = '%' := by
  intro heq
  subst heq
  exact absurd h (by decide)

theorem utf8Bytes_ascii (c : Char) (h : c.toNat < 128) : utf8Bytes c = [c.toNat] := by
  simp [utf8Bytes, h]

theorem pctDecode_cons_lit (c : Char) (h : ¬ c = '%') (t : List Char) :
    pctDecode (c :: t) = (pctDecode t).map (fun bs => utf8Bytes c ++ bs) := by
  match t with
  | [] => simp [pctDecode, h]
  | [a] => simp [pctDecode, h]
  | a :: b :: r => simp [pctDecode, h]

theorem pctDecode_pct (a b : Char) (ha : isHexDigit a = true) (hb : isHexDigit b = true)
    (t : List Char) :
    pctDecode ('%' :: a :: b :: t)
      = (pctDecode t).map (fun bs => (hexVal a * 16 + hexVal b) :: bs) := by
  simp [pctDecode, ha, hb]

theorem pctDecode_slash (t : List Char) :
    pctDecode ('/' :: t) = (pctDecode t).map (fun bs => 47 :: bs) := by
  rw [pctDecode_cons_lit '/' (by decide)]
  simp [show utf8Bytes '/' = [47] from by decide]

theorem pct_enc_char (c : Char) (hc : allowedChar c = true) (hslash : ¬ c = '/')
    (t : List Char) :
    pctDecode (encChar c ++ t) = (pctDecode t).map (fun bs => c.toNat :: bs) := by
  rcases allowedChar_cases c hc with hkept | rfl | rfl | rfl
  · rw [show encChar c = [c] from by simp [encChar, hkept], List.singleton_append,
      pctDecode_cons_lit c (allowedChar_ne_pct c hc),
      utf8Bytes_ascii c (allowedChar_toNat_lt c hc)]
    simp
  · rw [show encChar ' ' = ['%', '2', '0'] from by decide]
    rw [show (['%', '2', '0'] : List Char) ++ t = '%' :: '2' :: '0' :: t from rfl]
    rw [pctDecode_pct '2' '0' (by decide) (by decide)]
    simp [show hexVal '2' * 16 + hexVal '0' = 32 from by decide]
  · rw [show encChar '@' = ['%', '4', '0'] from by decide]
    rw [show (['%', '4', '0'] : List Char) ++ t = '%' :: '4' :: '0' :: t from rfl]
    rw [pctDecode_pct '4' '0' (by decide) (by decide)]
    simp [show hexVal '4' * 16 + hexVal '0' = 64 from by decide]
  · exact absurd rfl hslash

theorem pct_enc_list (s : List Char)
    (hs : ∀ c ∈ s, allowedChar c = true ∧ ¬ c = '/') (t : List Char) :
    pctDecode (s.flatMap encChar ++ t)
      = (pctDecode t).map (fun bs => s.map Char.toNat ++ bs) := by
  induction s with
  | nil =>
    simp only [List.flatMap_nil, List.nil_append, List.map_nil]
    cases pctDecode t <;> simp
  | cons c s ih =>
    rw [List.flatMap_cons, List.append_assoc,
      pct_enc_char c (hs c (List.mem_cons_self _ _)).1 (hs c (List.mem_cons_self _ _)).2,
      ih (fun x hx => hs x (List.mem_cons_of_mem _ hx))]
    cases pctDecode t <;> simp

theorem segEnc_allowed (s : List Char)
    (hs : ∀ c ∈ s, allowedChar c = true ∧ ¬ c = '/') (t : List Char) :
    pctDecode (segEnc s ++ t)
      = (pctDecode t).map (fun bs => s.map Char.toNat ++ bs) := by
  by_cases h : s = [] ∨ s = ['.']
  · rcases h with rfl | rfl
    · simp only [show segEnc [] = [] from rfl, List.nil_append, List.map_nil]
      cases pctDecode t <;> simp
    · rw [show segEnc ['.'] = ['.'] from rfl, List.singleton_append,
        pctDecode_cons_lit '.' (by decide)]
      cases pctDecode t <;> simp [show utf8Bytes '.' = [46] from by decide]
  · rw [show segEnc s = encodeURIComponentL s from by simp [segEnc, h]]
    exact pct_enc_list s hs t

theorem pct_enc_join (L : List (List Char))
    (hL : ∀ s ∈ L, ∀ c ∈ s, allowedChar c = true ∧ ¬ c = '/') (t : List Char) :
    pctDecode (joinChar '/' (L.map segEnc) ++ t)
      = (pctDecode t).map (fun bs => (joinChar '/' L).map Char.toNat ++ bs) := by
  induction L with
  | nil =>
    simp only [List.map_nil, show joinChar '/' ([] : List (List Char)) = [] from rfl,
      List.nil_append]
    cases pctDecode t <;> simp
  | cons s rest ih =>
    cases rest with
    | nil =>
      simp only [List.map_cons, List.map_nil]
      rw [show joinChar '/' [segEnc s] = segEnc s from rfl,
        show joinChar '/' [s] = s from rfl]
      exact segEnc_allowed s (hL s (List.mem_cons_self _ _)) t
    | cons s2 tl =>
      simp only [List.map_cons] at ih ⊢
      rw [joinChar_cons_cons, joinChar_cons_cons, List.append_assoc,
        segEnc_allowed s (hL s (List.mem_cons_self _ _)),
        show ('/' :: joinChar '/' (segEnc s2 :: tl.map segEnc)) ++ t
          = '/' :: (joinChar '/' (segEnc s2 :: tl.map segEnc) ++ t) from rfl,
        pctDecode_slash, ih (fun x hx => hL x (List.mem_cons_of_mem _ hx))]
      cases pctDecode t <;> simp

theorem utf8Decode_cons_ascii (b : Nat) (hb : b < 128) (rest : List Nat) :
    utf8Decode (b :: rest) = (utf8Decode rest).map (fun cs => Char.ofNat b :: cs) := by
  show utf8DecodeFuel (rest.length + 1) (b :: rest)
    = (utf8DecodeFuel rest.length rest).map (fun cs => Char.ofNat b :: cs)
  simp only [utf8DecodeFuel, if_pos hb]

theorem utf8Decode_ascii (s : List Char) (h : ∀ c ∈ s, c.toNat < 128) :
    utf8Decode (s.map Char.toNat) = some s := by
  induction s with
  | nil => rfl
  | cons c s ih =>
    rw [List.map_cons, utf8Decode_cons_ascii c.toNat (h c (List.mem_cons_self _ _)),
      ih (fun x hx => h x (List.mem_cons_of_mem _ hx))]
    simp [Char.ofNat_toNat]

theorem decode_encodePath_roundtrip (p : List Char)
    (hp : ∀ c ∈ p, allowedChar c = true) :
    decodeURIComponentL (encodePath p) = some p := by
  have hseg : ∀ s ∈ splitOnChar '/' p, ∀ c ∈ s, allowedChar c = true ∧ ¬ c = '/' := by
    intro s hs c hc
    have hm := mem_of_mem_splitOnChar '/' p s hs c hc
    exact ⟨hp c hm.1, hm.2⟩
  have h1 : pctDecode (encodePath p) = some (p.map Char.toNat) := by
    have hj := pct_enc_join (splitOnChar '/' p) hseg []
    rw [List.append_nil] at hj
    rw [encodePath, hj, joinChar_splitOnChar]
    simp [pctDecode]
  rw [decodeURIComponentL, h1, Option.some_bind]
  exact utf8Decode_ascii p (fun c hc => allowedChar_toNat_lt c (hp c hc))

-- ============================================================================
-- CLAIM THEOREMS
-- ============================================================================

/-- C1: the claim states that after `open(A)`, `close()`, then `open(B)`
before the 200 ms delay elapses, the hide-and-restore effects scheduled by
the first `close()` never fire.  The code contradicts this: `closeModal`'s
`setTimeout` callback is unconditional and uncancelled, so when it fires it
hides the overlay (`hidden` class added), marks it `aria-hidden`, unlocks
body scroll and performs the focus restore — even though `isModalOpen` is
still `true` and the displayed image is `B`. -/
theorem claim_C1_stale_close_callback_fires :
    (fireCloseTimeout (fireRAF (openModal ("B.png").data ("B").data
        (closeModal (fireRAF (openModal ("A.png").data ("A").data
          initState)))))).isModalOpen = true
  ∧ (fireCloseTimeout (fireRAF (openModal ("B.png").data ("B").data
        (closeModal (fireRAF (openModal ("A.png").data ("A").data
          initState)))))).modalImageSrc = encodePath ("B.png").data
  ∧ (fireCloseTimeout (fireRAF (openModal ("B.png").data ("B").data
        (closeModal (fireRAF (openModal ("A.png").data ("A").data
          initState)))))).hidden = true
  ∧ (fireCloseTimeout (fireRAF (openModal ("B.png").data ("B").data
        (closeModal (fireRAF (openModal ("A.png").data ("A").data
          initState)))))).ariaHidden = true
  ∧ (fireCloseTimeout (fireRAF (openModal ("B.png").data ("B").data
        (closeModal (fireRAF (openModal ("A.png").data ("A").data
          initState)))))).bodyScrollLocked = false
  ∧ (fireCloseTimeout (fireRAF (openModal ("B.png").data ("B").data
        (closeModal (fireRAF (openModal ("A.png").data ("A").data
          initState)))))).lastFocusedElement = none := by
  decide

/-- C2 (counterexample): the claim states a second `close()` during the
delay does not schedule a second restoration.  In the code each `closeModal`
call unconditionally calls `setTimeout`, so after `close(); close()` two
hide-and-restore callbacks are pending, not one. -/
theorem claim_C2_counterexample :
    (closeModal (openModal ("A.png").data ("A").data initState)).pendingClose = 1
  ∧ (closeModal (closeModal (openModal ("A.png").data ("A").data
      initState))).pendingClose = 2 := by
  decide

/-- C2 (amended): a repeated `close()` does schedule a second timeout
callback, but the net effect is that of a single `close()`: once both
callbacks have fired the state — including the pending-callback count —
equals the state after one `close()` and its single callback, because the
second callback's class/attribute writes are idempotent and
`lastFocusedElement` is already `null` when it runs. -/
theorem claim_C2_close_close_net_effect (s : ModalState) :
    fireCloseTimeout (fireCloseTimeout (closeModal (closeModal s)))
      = fireCloseTimeout (closeModal s) := by
  cases hl : s.lastFocusedElement <;>
    simp [closeModal, fireCloseTimeout, closeTimeoutBody, hl]

/-- C3: `encodePath` splits on `/`, keeps empty and `.` segments verbatim,
applies standard URI-component escaping to every other segment, rejoins
with `/`; the empty string maps to itself and the documented example holds. -/
theorem claim_C3_encodePath :
    (∀ p : List Char, encodePath p = joinChar '/' ((splitOnChar '/' p).map segEnc))
  ∧ segEnc [] = []
  ∧ segEnc ['.'] = ['.']
  ∧ (∀ s : List Char, s ≠ [] → s ≠ ['.'] → segEnc s = encodeURIComponentL s)
  ∧ encodePathStr "" = ""
  ∧ encodePathStr "./Public/ALL LOGOS/Cliick Logo 1@4x.png"
      = "./Public/ALL%20LOGOS/Cliick%20Logo%201%404x.png" := by
  refine ⟨fun p => rfl, rfl, rfl, ?_, by decide, by decide⟩
  intro s h1 h2
  simp [segEnc, h1, h2]

/-- Witness for C3 at a concrete non-empty, non-`.` segment. -/
theorem claim_C3_witness :
    segEnc ("ALL LOGOS").data = encodeURIComponentL ("ALL LOGOS").data :=
  claim_C3_encodePath.2.2.2.1 ("ALL LOGOS").data (by decide) (by decide)

/-- C4 (counterexample): the claim says the derived filename removes the
text from the last `.` to the end whenever the final segment contains a
`.`.  The regex `\.[^/.]+$` requires at least one character after the dot,
so `"a/b/NAME."` derives `"NAME."`, not `"NAME"`; and the logo gallery
derives the fallback label `"logo"` (not an empty label) from an empty
path. -/
theorem claim_C4_counterexample :
    deriveFilename ("a/b/NAME.").data = ("NAME.").data
  ∧ ("NAME.").data ≠ ("NAME").data
  ∧ deriveFilenameLogo [] = ("logo").data
  ∧ ("logo").data ≠ ([] : List Char) := by
  decide

/-- C4 (amended): the derived filename is the raw final `/`-segment with a
final-extension suffix removed, where the suffix is a `.` followed by one
or more characters none of which is `.` or `/`; a final segment with no
`.`, or ending in `.`, is unchanged; the empty path yields the empty
filename in the flyer gallery and the fallback label `logo` in the logo
gallery. -/
theorem claim_C4_filename_derivation :
    (∀ p : List Char, deriveFilename p = stripExt (jsPop (splitOnChar '/' p)))
  ∧ (∀ s t : List Char, t ≠ [] → (∀ c ∈ t, isExtChar c = true) →
      stripExt (s ++ '.' :: t) = s)
  ∧ (∀ s : List Char, (∀ c ∈ s, c ≠ '.') → stripExt s = s)
  ∧ (∀ s : List Char, stripExt (s ++ ['.']) = s ++ ['.'])
  ∧ deriveFilename ("a/b/NAME.png").data = ("NAME").data
  ∧ deriveFilename ("a/b/NOEXT").data = ("NOEXT").data
  ∧ deriveFilename [] = []
  ∧ deriveFilenameLogo [] = ("logo").data :=
  ⟨fun _ => rfl, stripExt_strip, stripExt_no_dot, stripExt_trailing_dot,
    by decide, by decide, by decide, by decide⟩

/-- Witness for C4 at concrete inputs discharging the hypotheses. -/
theorem claim_C4_witness :
    stripExt (("NAME").data ++ '.' :: ("png").data) = ("NAME").data :=
  claim_C4_filename_derivation.2.1 ("NAME").data ("png").data (by decide) (by decide)

/-- C5: with the modal open, if the visible focusable descendants are empty
the Tab trap is a no-op; otherwise Tab on the last focusable wraps focus to
the first and Shift+Tab on the first wraps to the last, suppressing the
default behaviour in both cases. -/
theorem claim_C5_focus_trap (container : List El) (active : Option El) :
    (getFocusableElements container = [] →
      ∀ sk : Bool, handleTab true container sk active = (active, false))
  ∧ (∀ f l : El, (getFocusableElements container).head? = some f →
      (getFocusableElements container).getLast? = some l →
      (active = some l → handleTab true container false active = (some f, true))
      ∧ (active = some f → handleTab true container true active = (some l, true))) := by
  constructor
  · intro h sk
    simp [handleTab, h]
  · intro f l hf hl
    cases hfs : getFocusableElements container with
    | nil => rw [hfs] at hf; simp at hf
    | cons f0 rest =>
      rw [hfs] at hf hl
      rw [List.head?_cons, Option.some_inj] at hf
      subst hf
      have hlast : (f0 :: rest).getLast (List.cons_ne_nil f0 rest) = l := by
        rw [List.getLast?_eq_getLast (f0 :: rest) (List.cons_ne_nil f0 rest),
          Option.some_inj] at hl
        exact hl
      constructor
      · intro ha
        simp [handleTab, hfs, hlast, ha]
      · intro ha
        simp [handleTab, hfs, hlast, ha]

/-- Witness for C5 with two concrete focusable elements. -/
theorem claim_C5_witness :
    handleTab true [⟨1, true, true⟩, ⟨2, true, true⟩] false (some ⟨2, true, true⟩)
      = (some ⟨1, true, true⟩, true)
  ∧ handleTab true [⟨1, true, true⟩, ⟨2, true, true⟩] true (some ⟨1, true, true⟩)
      = (some ⟨2, true, true⟩, true) :=
  ⟨((claim_C5_focus_trap [⟨1, true, true⟩, ⟨2, true, true⟩]
        (some ⟨2, true, true⟩)).2 ⟨1, true, true⟩ ⟨2, true, true⟩
        (by decide) (by decide)).1 (by decide),
   ((claim_C5_focus_trap [⟨1, true, true⟩, ⟨2, true, true⟩]
        (some ⟨1, true, true⟩)).2 ⟨1, true, true⟩ ⟨2, true, true⟩
        (by decide) (by decide)).2 (by decide)⟩

/-- C6 (counterexample): the claim says Escape invokes `close()` whenever
the state is not `closed`, including during the closing window.  In the
code the Escape handler is guarded by `isModalOpen`, which `closeModal`
clears immediately, so during the closing window (overlay not yet hidden,
one close callback pending) Escape does nothing: no second callback is
scheduled. -/
theorem claim_C6_counterexample :
    handleEscape (closeModal (openModal ("A.png").data ("A").data initState))
        = closeModal (openModal ("A.png").data ("A").data initState)
  ∧ (closeModal (openModal ("A.png").data ("A").data initState)).hidden = false
  ∧ (closeModal (openModal ("A.png").data ("A").data initState)).pendingClose = 1 := by
  decide

/-- C6 (amended): Escape invokes `close()` iff `isModalOpen` is `true`
(the `open` state); while the modal is mid-close or fully closed
(`isModalOpen = false`) Escape has no effect at all. -/
theorem claim_C6_escape_iff_open (s : ModalState) :
    (s.isModalOpen = true → handleEscape s = closeModal s)
  ∧ (s.isModalOpen = false → handleEscape s = s) := by
  constructor <;> intro h <;> simp [handleEscape, h]

/-- Witness for C6 in both an open and a closed state. -/
theorem claim_C6_witness :
    handleEscape (openModal ("A.png").data ("A").data initState)
        = closeModal (openModal ("A.png").data ("A").data initState)
  ∧ handleEscape initState = initState :=
  ⟨(claim_C6_escape_iff_open (openModal ("A.png").data ("A").data initState)).1
      (by decide),
   (claim_C6_escape_iff_open initState).2 (by decide)⟩

/-- C7: rendering a gallery twice into the same container leaves exactly
one card per collection entry, in collection order — the second call clears
the previous content, so the card count equals the collection length, not
twice it. -/
theorem claim_C7_no_duplicate_cards (l : List Card) :
    generateGallery (generateGallery (some l)) = generateGallery (some l)
  ∧ generateGallery (some l) = some (flyers.map flyerCard)
  ∧ (flyers.map flyerCard).length = flyers.length
  ∧ generateLogoGallery (generateLogoGallery (some l)) = generateLogoGallery (some l)
  ∧ generateLogoGallery (some l) = some (logos.map logoCard)
  ∧ (logos.map logoCard).length = logos.length := by
  refine ⟨?_, ?_, ?_, ?_, ?_, ?_⟩ <;>
    simp [generateGallery, generateLogoGallery, foldl_append_eq_map]

/-- C9: the close-delay callback always leaves `lastFocusedElement` null,
so a later-firing callback of a repeated `close()` performs no focus
change. -/
theorem claim_C9_focus_restore_once (s : ModalState) :
    (closeTimeoutBody s).lastFocusedElement = none
  ∧ (closeTimeoutBody (closeTimeoutBody s)).focused = (closeTimeoutBody s).focused := by
  cases hl : s.lastFocusedElement <;> simp [closeTimeoutBody, hl]

/-- C10: the download control's suggested filename is the raw final
`/`-segment of the image path (with extension); when that segment is empty
— exactly when the path is empty or ends in `/` — it falls back to the
supplied display name. -/
theorem claim_C10_download_name (p n : List Char) (s : ModalState) :
    (openModal p n s).downloadAttr = jsDownloadName p n
  ∧ jsDownloadName p n
      = (if jsPop (splitOnChar '/' p) = [] then n else jsPop (splitOnChar '/' p))
  ∧ (jsPop (splitOnChar '/' p) = [] ↔ p = [] ∨ p.getLast? = some '/') :=
  ⟨rfl, rfl, jsPop_splitOnChar_eq_nil_iff p⟩

/-- Witness for C8 at a concrete path containing space, apostrophe, `@`
and `/`. -/
theorem decode_encodePath_roundtrip_witness :
    decodeURIComponentL (encodePath ("a\x27b c@d/e.png").data)
      = some (("a\x27b c@d/e.png").data) :=
  decode_encodePath_roundtrip ("a\x27b c@d/e.png").data (by decide)

end Portfolio
